import Mathlib

set_option linter.unusedVariables false

/-! Shallow embedding of `src/github_stats.py`: the `Queries` request layer
    (`query`, `query_rest`) and the `Stats` aggregator (`get_stats` and the
    lazy property accessors).  JSON responses are modelled as typed records
    whose `Option` fields stand for possibly-absent dictionary keys, matching
    the `dict.get(key, default)` reads of the Python source. -/

/-- JSON node object of a language edge; the `name` and `color` keys may be
    absent (`lang.get("node", {}).get("name", "Other")` /
    `.get("color")` in the source). -/
structure LangNode where
  name : Option String
  color : Option String
deriving DecidableEq, Repr

/-- JSON language edge: `size` may be absent (`lang.get("size", 0)`), and the
    whole `node` object may be absent (`lang.get("node", {})`). -/
structure LangEdge where
  size : Option Nat
  node : Option LangNode
deriving DecidableEq, Repr

/-- JSON repository node: `nameWithOwner` may be absent
    (`repo.get("nameWithOwner")` yields `None` then), and `languages.edges`
    is read with default `[]`. -/
structure Repo where
  nameWithOwner : Option String
  languages : List LangEdge
deriving DecidableEq, Repr

/-- JSON `pageInfo` object: both keys are read with defaults
    (`.get("hasNextPage", False)`, `.get("endCursor", next_cursor)`), so each
    is `Option`; `endCursor`, when present, may itself be JSON `null`. -/
structure PageInfo where
  hasNextPage : Option Bool
  endCursor : Option (Option String)
deriving DecidableEq, Repr

/-- JSON page of repositories: `pageInfo` may be absent
    (`.get("pageInfo", {})`) and `nodes` is read with default `[]`; a node in
    the list may be JSON `null` (the source skips `None` repos). -/
structure RepoPage where
  pageInfo : Option PageInfo
  nodes : List (Option Repo)
deriving DecidableEq, Repr

/-- JSON `data.viewer` envelope of one overview response; every key is read
    with a default in the source, so each field is `Option`.  The nested
    `totalCount` reads collapse to a single optional number. -/
structure Viewer where
  name : Option String
  login : Option String
  pullRequests : Option Nat
  openIssues : Option Nat
  closedIssues : Option Nat
  repositories : Option RepoPage
  repositoriesContributedTo : Option RepoPage
deriving DecidableEq, Repr

/-- Constructor arguments of `Stats.__init__` that matter to the aggregation
    pass: the two exclusion sets and the `ignore_forked_repos` flag. -/
structure Config where
  exclude_repos : List String
  exclude_langs : List String
  ignore_forked_repos : Bool
deriving DecidableEq, Repr

/-- Per-language record stored in the `self._languages` dictionary:
    cumulative `size`, `occurrences` count and first-seen `color`. -/
structure LangStat where
  size : Nat
  occurrences : Nat
  color : Option String
deriving DecidableEq, Repr

/-- Mutable state of the `while True` loop inside `Stats.get_stats`: the
    attributes it assigns plus the two pagination cursors. -/
structure LoopState where
  _name : Option String
  _issues : Nat
  _prs : Nat
  _languages : List (String × LangStat)
  _repos : List (Option String)
  next_owned : Option String
  next_contrib : Option String
deriving DecidableEq, Repr

/-- Membership test `name in self._exclude_repos`: `name` may be Python
    `None` (absent `nameWithOwner`), which is never equal to a string of the
    exclusion set. -/
def optMemRepos (n : Option String) (ex : List String) : Bool :=
  match n with
  | none => false
  | some s => decide (s ∈ ex)

/-- Python `str.lower()` as used by the source on language names: lower-case
    every character (the exclusion sets and GitHub language names the source
    compares are ASCII). -/
def str_lower (s : String) : String :=
  ⟨s.data.map Char.toLower⟩

/-- Language name of an edge: `lang.get("node", {}).get("name", "Other")`. -/
def edge_name (e : LangEdge) : String :=
  match e.node with
  | none => "Other"
  | some nd => nd.name.getD "Other"

/-- Byte size of an edge: `lang.get("size", 0)`. -/
def edge_size (e : LangEdge) : Nat :=
  e.size.getD 0

/-- Color of an edge: `lang.get("node", {}).get("color")`. -/
def edge_color (e : LangEdge) : Option String :=
  e.node.bind LangNode.color

/-- Create-or-update of the language dictionary: bump the (unique) existing
    entry for key `n`, or append a fresh entry with `occurrences = 1` and the
    first-seen color. -/
def update_lang : List (String × LangStat) → String → Nat → Option String → List (String × LangStat)
  | [], n, sz, c => [(n, ⟨sz, 1, c⟩)]
  | p :: rest, n, sz, c =>
    if p.1 = n then (p.1, ⟨p.2.size + sz, p.2.occurrences + 1, p.2.color⟩) :: rest
    else p :: update_lang rest n sz c

/-- Body of the `for lang in repo.get("languages", ...)` loop: skip the edge
    when its (lower-cased) name is in the lower-cased language exclusion set,
    otherwise create-or-update its entry. -/
def process_lang (exLower : List String) (tbl : List (String × LangStat)) (e : LangEdge) : List (String × LangStat) :=
  let n := edge_name e
  if str_lower n ∈ exLower then tbl
  else update_lang tbl n (edge_size e) (edge_color e)

/-- Body of the `for repo in repos` loop: skip `None` repos, skip a repo whose
    identifier is already collected or excluded (exact match), otherwise add
    the identifier and fold its language edges into the table. -/
def process_repo (cfg : Config) (s : LoopState) (r : Option Repo) : LoopState :=
  match r with
  | none => s
  | some repo =>
    let n := repo.nameWithOwner
    if n ∈ s._repos ∨ optMemRepos n cfg.exclude_repos then s
    else
      { s with
        _repos := s._repos ++ [n],
        _languages := repo.languages.foldl
          (process_lang (cfg.exclude_langs.map str_lower)) s._languages }

/-- Candidate repo list of one page: the owned page's nodes plus, unless
    `ignore_forked_repos` is set, the contributed page's nodes. -/
def page_repo_nodes (cfg : Config) (v : Viewer) : List (Option Repo) :=
  let owned := match v.repositories with | none => [] | some p => p.nodes
  let contrib := match v.repositoriesContributedTo with | none => [] | some p => p.nodes
  if cfg.ignore_forked_repos then owned else owned ++ contrib

/-- Issue total derived from one page:
    `closedIssues.totalCount + openIssues.totalCount`, each defaulting 0. -/
def issues_of (v : Viewer) : Nat :=
  v.closedIssues.getD 0 + v.openIssues.getD 0

/-- Pull-request total derived from one page. -/
def prs_of (v : Viewer) : Nat :=
  v.pullRequests.getD 0

/-- One iteration of the `while True` body up to (not including) the
    pagination decision: set `_name`, `_issues`, `_prs` from this page, then
    fold every candidate repo. -/
def process_page (cfg : Config) (s : LoopState) (v : Viewer) : LoopState :=
  let nm := match v.name with
    | some n => n
    | none => v.login.getD "No Name"
  let s1 := { s with _name := some nm, _issues := issues_of v, _prs := prs_of v }
  (page_repo_nodes cfg v).foldl (process_repo cfg) s1

/-- Page-info of an optional repo page: `page.get("pageInfo", {})`. -/
def page_info_of (p : Option RepoPage) : Option PageInfo :=
  p.bind RepoPage.pageInfo

/-- The `hasNextPage` flag of an optional repo page, defaulting `False`. -/
def has_next (p : Option RepoPage) : Bool :=
  ((page_info_of p).bind PageInfo.hasNextPage).getD false

/-- Loop-continuation condition: either collection reports a next page. -/
def viewer_has_next (v : Viewer) : Bool :=
  has_next v.repositories || has_next v.repositoriesContributedTo

/-- Cursor update `page.get("pageInfo", {}).get("endCursor", prev)`: when the
    `endCursor` key is absent the previous cursor is retained; when present
    its value (possibly JSON `null`) replaces the cursor. -/
def advance_cursor (prev : Option String) (p : Option RepoPage) : Option String :=
  match page_info_of p with
  | none => prev
  | some pi =>
    match pi.endCursor with
    | none => prev
    | some c => c

/-- Cursor updates performed in the `hasNextPage` branch of the loop. -/
def advance_cursors (s : LoopState) (v : Viewer) : LoopState :=
  { s with
    next_owned := advance_cursor s.next_owned v.repositories,
    next_contrib := advance_cursor s.next_contrib v.repositoriesContributedTo }

/-- The `while True` loop of `Stats.get_stats`, driven by the stream of
    responses the server would return: the first response `v` is always
    processed; while the current page reports a next page and another response
    is available, cursors advance and the loop continues. -/
def run_pages (cfg : Config) : LoopState → Viewer → List Viewer → LoopState
  | s, v, [] => process_page cfg s v
  | s, v, w :: ws =>
    let s1 := process_page cfg s v
    if viewer_has_next v then run_pages cfg (advance_cursors s1 v) w ws else s1

/-- Number of overview pages the loop aggregates for a given response
    stream. -/
def pages_consumed : Viewer → List Viewer → Nat
  | _, [] => 1
  | v, w :: ws => if viewer_has_next v then pages_consumed w ws + 1 else 1

/-- The pages the loop actually aggregates, in order. -/
def consumed_pages : Viewer → List Viewer → List Viewer
  | v, [] => [v]
  | v, w :: ws => if viewer_has_next v then v :: consumed_pages w ws else [v]

/-- The last page the loop processes (whose counter fields survive). -/
def last_page : Viewer → List Viewer → Viewer
  | v, [] => v
  | v, w :: ws => if viewer_has_next v then last_page w ws else v

/-- Keys of the language table. -/
def lang_keys (tbl : List (String × LangStat)) : List String :=
  tbl.map Prod.fst

/-- Total byte size over the language table:
    `sum(v.get("size", 0) for v in self._languages.values())`. -/
def langs_total (tbl : List (String × LangStat)) : Nat :=
  (tbl.map fun p => p.2.size).sum

/-- Proportion computation after the loop: `100 * (size / langs_total)` per
    entry.  Python float division raises `ZeroDivisionError` when the table
    is non-empty while the total is 0; that abnormal exit is `none`.  An empty
    table never divides, so it completes with no proportions. -/
def compute_props (tbl : List (String × LangStat)) : Option (List (String × Rat)) :=
  if tbl.isEmpty then some []
  else if langs_total tbl = 0 then none
  else some (tbl.map fun p => (p.1, 100 * ((p.2.size : Rat) / (langs_total tbl : Rat))))

/-- Attribute slots of a `Stats` object.  Note the asymmetry of
    `Stats.__init__`: `_name`, `_total_contributions`, `_languages` and
    `_repos` are initialised to `None`, but `_issues` and `_prs` are
    initialised to the plain integer `0`. -/
structure StatsObj where
  _name : Option String
  _total_contributions : Option Nat
  _languages : Option (List (String × LangStat))
  _props : Option (List (String × Rat))
  _repos : Option (List (Option String))
  _issues : Nat
  _prs : Nat
deriving DecidableEq, Repr

/-- Fresh `Stats` object as built by `Stats.__init__`. -/
def init_obj : StatsObj :=
  { _name := none, _total_contributions := none, _languages := none,
    _props := none, _repos := none, _issues := 0, _prs := 0 }

/-- Response stream an aggregation run receives: the loop always gets at
    least one overview response (a failed query still yields the empty
    dictionary, processed as a page with every key absent). -/
structure Env where
  first_page : Viewer
  more_pages : List Viewer
deriving DecidableEq, Repr

/-- Loop state at entry of `Stats.get_stats`: `_languages` and `_repos` are
    reset to empty, the other attributes keep their current values, and both
    cursors start absent. -/
def loop_state_of (obj : StatsObj) : LoopState :=
  { _name := obj._name, _issues := obj._issues, _prs := obj._prs,
    _languages := [], _repos := [], next_owned := none, next_contrib := none }

/-- Whole `Stats.get_stats` pass: run the pagination loop, then compute the
    proportions; `none` is the `ZeroDivisionError` exit of the final loop.
    The Python code stores each proportion inside the per-language dictionary
    under the key `prop`; here they live in the sibling `_props` field. -/
def get_stats (cfg : Config) (env : Env) (obj : StatsObj) : Option StatsObj :=
  let s := run_pages cfg (loop_state_of obj) env.first_page env.more_pages
  (compute_props s._languages).map fun pr =>
    { obj with _name := s._name, _issues := s._issues, _prs := s._prs,
               _languages := some s._languages, _props := some pr,
               _repos := some s._repos }

/-- Lazy accessor `Stats.name`: value read, resulting object state, and the
    number of `get_stats` executions the read triggered.  The trailing
    `Option.map` models the `assert self._name is not None`; the outer `none`
    is an exception escaping `get_stats`. -/
def name_read (cfg : Config) (env : Env) (obj : StatsObj) : Option (String × StatsObj × Nat) :=
  match obj._name with
  | some n => some (n, obj, 0)
  | none =>
    (get_stats cfg env obj).bind fun obj1 =>
      obj1._name.map fun n => (n, obj1, 1)

/-- Lazy accessor `Stats.languages`. -/
def languages_read (cfg : Config) (env : Env) (obj : StatsObj) : Option (List (String × LangStat) × StatsObj × Nat) :=
  match obj._languages with
  | some t => some (t, obj, 0)
  | none =>
    (get_stats cfg env obj).bind fun obj1 =>
      obj1._languages.map fun t => (t, obj1, 1)

/-- Lazy accessor `Stats.repos`. -/
def repos_read (cfg : Config) (env : Env) (obj : StatsObj) : Option (List (Option String) × StatsObj × Nat) :=
  match obj._repos with
  | some t => some (t, obj, 0)
  | none =>
    (get_stats cfg env obj).bind fun obj1 =>
      obj1._repos.map fun t => (t, obj1, 1)

/-- Property `Stats.issues`.  The guard in the source is
    `if self._issues is None: await self.get_stats()`, but `_issues` has type
    `int` and is initialised to `0`, so the guard can never fire: the read
    always returns the current value, runs `get_stats` zero times, and leaves
    the object unchanged. -/
def issues_read (obj : StatsObj) : Nat × StatsObj × Nat :=
  (obj._issues, obj, 0)

/-- Property `Stats.prs`, with the same never-firing `is None` guard. -/
def prs_read (obj : StatsObj) : Nat × StatsObj × Nat :=
  (obj._prs, obj, 0)

/-- Outcome of one transport use in `Queries.query`: the transport raised, or
    it returned a response whose parsed JSON body is `None` or a value. -/
inductive QueryOutcome (α : Type) where
  | raised : QueryOutcome α
  | parsed : Option α → QueryOutcome α
deriving DecidableEq, Repr

/-- Control flow of `Queries.query`: try the asynchronous transport; a parsed
    non-`None` body is returned; a parsed `None` body falls through to
    `return dict()`.  When the asynchronous transport raises, fall back once
    to the synchronous transport with the same three cases — except that a
    raise inside the `except` block propagates to the caller
    (`Except.error`). -/
def Queries.query {α : Type} (empty : α) (primary fallback : QueryOutcome α) : Except Unit α :=
  match primary with
  | .parsed (some r) => .ok r
  | .parsed none => .ok empty
  | .raised =>
    match fallback with
    | .parsed (some r) => .ok r
    | .parsed none => .ok empty
    | .raised => .error ()

/-- Outcome of the synchronous fallback inside one `query_rest` iteration:
    status 202, status 200 with a body, any other status (the iteration just
    ends and the loop continues), or a raise that propagates. -/
inductive RestSync (α : Type) where
  | s202 : RestSync α
  | s200 : α → RestSync α
  | other : RestSync α
  | raised : RestSync α
deriving DecidableEq, Repr

/-- Outcome of one `query_rest` iteration's asynchronous request: status 202,
    a non-202 response whose parsed body is `None` or a value, or a raise
    followed by the synchronous fallback's outcome. -/
inductive RestAttempt (α : Type) where
  | status202 : RestAttempt α
  | ok : Option α → RestAttempt α
  | raised : RestSync α → RestAttempt α
deriving DecidableEq, Repr

/-- Decidable equality of `Except` values, so that concrete request runs can
    be checked by `decide`. -/
instance {ε α : Type} [DecidableEq ε] [DecidableEq α] : DecidableEq (Except ε α) := fun a b =>
  match a, b with
  | .ok x, .ok y =>
    if h : x = y then .isTrue (by rw [h]) else .isFalse (by intro hc; cases hc; exact h rfl)
  | .error x, .error y =>
    if h : x = y then .isTrue (by rw [h]) else .isFalse (by intro hc; cases hc; exact h rfl)
  | .ok _, .error _ => .isFalse (by intro hc; cases hc)
  | .error _, .ok _ => .isFalse (by intro hc; cases hc)

/-- Observable outcome of a `query_rest` call: its result (`Except.error` is
    a propagated exception), how many transport requests it issued, and how
    many `asyncio.sleep(2)` calls it made. -/
structure RestRun (α : Type) where
  result : Except Unit α
  requests : Nat
  sleeps : Nat
deriving DecidableEq, Repr

/-- The `for _ in range(60)` loop of `Queries.query_rest`, with `fuel`
    remaining iterations and `i` the index of the next attempt in the
    response stream `att`.  Exhausted fuel is the
    `There were too many 202s` exit returning the empty dictionary. -/
def query_rest_go {α : Type} (empty : α) (att : Nat → RestAttempt α) : Nat → Nat → RestRun α
  | 0, _ => ⟨.ok empty, 0, 0⟩
  | fuel + 1, i =>
    match att i with
    | .ok (some r) => ⟨.ok r, 1, 0⟩
    | .ok none =>
      let t := query_rest_go empty att fuel (i + 1)
      ⟨t.result, t.requests + 1, t.sleeps⟩
    | .status202 =>
      let t := query_rest_go empty att fuel (i + 1)
      ⟨t.result, t.requests + 1, t.sleeps + 1⟩
    | .raised sync =>
      match sync with
      | .s200 r => ⟨.ok r, 2, 0⟩
      | .s202 =>
        let t := query_rest_go empty att fuel (i + 1)
        ⟨t.result, t.requests + 2, t.sleeps + 1⟩
      | .other =>
        let t := query_rest_go empty att fuel (i + 1)
        ⟨t.result, t.requests + 2, t.sleeps⟩
      | .raised => ⟨.error (), 2, 0⟩

/-- `Queries.query_rest` on a given response stream: at most 60 iterations. -/
def query_rest {α : Type} (empty : α) (att : Nat → RestAttempt α) : RestRun α :=
  query_rest_go empty att 60 0

/-- Configuration with no exclusions. -/
def cfg0 : Config := ⟨[], [], false⟩

/-- Empty overview response (`{}` viewer): every key absent. -/
def emptyViewer : Viewer := ⟨none, none, none, none, none, none, none⟩

/-- Overview page reporting 7 issues and 3 pull requests, whose owned
    collection has a next page. -/
def pageA : Viewer :=
  { name := none, login := some "u", pullRequests := some 3,
    openIssues := some 7, closedIssues := some 0,
    repositories := some ⟨some ⟨some true, some (some "cur1")⟩, []⟩,
    repositoriesContributedTo := none }

/-- Terminal overview page carrying no issue or pull-request fields. -/
def pageB : Viewer := emptyViewer

/-- Terminal page with one repository whose single language edge has size 0:
    the aggregated table is non-empty with total size 0. -/
def pageZ : Viewer :=
  { emptyViewer with
    repositories := some ⟨none, [some ⟨some "a/b", [⟨some 0, some ⟨some "X", none⟩⟩]⟩]⟩ }

/-- Terminal page with one repository whose single language edge has
    size 10. -/
def pageW : Viewer :=
  { emptyViewer with
    repositories := some ⟨none, [some ⟨some "a/b", [⟨some 10, some ⟨some "X", none⟩⟩]⟩]⟩ }

/-- Terminal page reporting 5 open issues and nothing else. -/
def page5 : Viewer := { emptyViewer with openIssues := some 5 }

/-- REST response stream answering 202 exactly three times, then 200 with
    payload 7. -/
def att3 : Nat → RestAttempt Nat := fun i =>
  if i < 3 then .status202 else .ok (some 7)

/-- Configuration excluding repository identifier "e/x". -/
def cfgX : Config := ⟨["e/x"], [], false⟩

/-- Repository whose identifier is excluded by `cfgX`. -/
def repoEx : Repo := ⟨some "e/x", []⟩

/-- The repository carried by `pageW`. -/
def repoW : Repo := ⟨some "a/b", [⟨some 10, some ⟨some "X", none⟩⟩]⟩

/-- The object produced by a successful `get_stats` run on `pageW`. -/
def objW : StatsObj := (get_stats cfg0 ⟨pageW, []⟩ init_obj).getD init_obj


theorem foldl_inv {α β : Type} (f : α → β → α) (P : α → Prop)
    (hf : ∀ s r, P s → P (f s r)) :
    ∀ (l : List β) (s : α), P s → P (l.foldl f s) := by
  intro l
  induction l with
  | nil => intro s h; simpa using h
  | cons x xs ih => intro s h; simpa using ih (f s x) (hf s x h)

theorem run_pages_inv (cfg : Config) (P : LoopState → Prop)
    (hpage : ∀ s v, P s → P (process_page cfg s v))
    (hadv : ∀ s v, P s → P (advance_cursors s v)) :
    ∀ (rest : List Viewer) (s : LoopState) (v : Viewer), P s → P (run_pages cfg s v rest) := by
  intro rest
  induction rest with
  | nil => intro s v h; simpa [run_pages] using hpage s v h
  | cons w ws ih =>
    intro s v h
    simp only [run_pages]
    split
    · exact ih _ w (hadv _ v (hpage s v h))
    · exact hpage s v h

theorem run_pages_inv_rl (cfg : Config) (Q : LoopState → Prop)
    (hq1 : ∀ s nm iss prs, Q s → Q { s with _name := nm, _issues := iss, _prs := prs })
    (hq2 : ∀ s a b, Q s → Q { s with next_owned := a, next_contrib := b })
    (hrepo : ∀ s r, Q s → Q (process_repo cfg s r)) :
    ∀ (rest : List Viewer) (s : LoopState) (v : Viewer), Q s → Q (run_pages cfg s v rest) := by
  apply run_pages_inv
  · intro s v h
    exact foldl_inv _ Q hrepo _ _ (hq1 s _ _ _ h)
  · intro s v h
    exact hq2 s _ _ h

theorem process_repo_issues (cfg : Config) (s : LoopState) (r : Option Repo) :
    (process_repo cfg s r)._issues = s._issues := by
  cases r with
  | none => rfl
  | some repo =>
    simp only [process_repo]
    split <;> rfl

theorem process_repo_prs (cfg : Config) (s : LoopState) (r : Option Repo) :
    (process_repo cfg s r)._prs = s._prs := by
  cases r with
  | none => rfl
  | some repo =>
    simp only [process_repo]
    split <;> rfl

theorem foldl_repo_issues (cfg : Config) :
    ∀ (l : List (Option Repo)) (s : LoopState),
      (l.foldl (process_repo cfg) s)._issues = s._issues := by
  intro l
  induction l with
  | nil => intro s; rfl
  | cons x xs ih => intro s; simpa [ih] using (process_repo_issues cfg s x)

theorem foldl_repo_prs (cfg : Config) :
    ∀ (l : List (Option Repo)) (s : LoopState),
      (l.foldl (process_repo cfg) s)._prs = s._prs := by
  intro l
  induction l with
  | nil => intro s; rfl
  | cons x xs ih => intro s; simpa [ih] using (process_repo_prs cfg s x)

theorem process_page_issues (cfg : Config) (s : LoopState) (v : Viewer) :
    (process_page cfg s v)._issues = issues_of v := by
  unfold process_page
  rw [foldl_repo_issues]

theorem process_page_prs (cfg : Config) (s : LoopState) (v : Viewer) :
    (process_page cfg s v)._prs = prs_of v := by
  unfold process_page
  rw [foldl_repo_prs]

theorem run_pages_issues_prs (cfg : Config) :
    ∀ (rest : List Viewer) (s : LoopState) (v : Viewer),
      (run_pages cfg s v rest)._issues = issues_of (last_page v rest) ∧
      (run_pages cfg s v rest)._prs = prs_of (last_page v rest) := by
  intro rest
  induction rest with
  | nil =>
    intro s v
    simp [run_pages, last_page, process_page_issues, process_page_prs]
  | cons w ws ih =>
    intro s v
    simp only [run_pages, last_page]
    split
    · exact ih _ w
    · exact ⟨process_page_issues cfg s v, process_page_prs cfg s v⟩

/-- C1 (counterexample): a two-page run whose first page reports 7 issues and
    3 pull requests but whose terminal page carries no issue or pull-request
    fields stores totals different from those derived from the first page —
    the later page's fields are not ignored. -/
theorem c1_counterexample :
    (get_stats cfg0 ⟨pageA, [pageB]⟩ init_obj).map StatsObj._issues ≠ some (issues_of pageA) ∧
    (get_stats cfg0 ⟨pageA, [pageB]⟩ init_obj).map StatsObj._prs ≠ some (prs_of pageA) := by
  decide

/-- C1 (amended): during `Stats.get_stats`, `_issues` and `_prs` are
    reassigned on every overview page, so the stored values equal those
    derived from the last page the loop processes, not the first. -/
theorem c1_totals_from_last_page :
    ∀ (cfg : Config) (s : LoopState) (v : Viewer) (rest : List Viewer),
      (run_pages cfg s v rest)._issues = issues_of (last_page v rest) ∧
      (run_pages cfg s v rest)._prs = prs_of (last_page v rest) :=
  fun cfg s v rest => run_pages_issues_prs cfg rest s v

/-- C2 (counterexample): when both the asynchronous transport and the
    synchronous fallback raise, `Queries.query` propagates the exception
    instead of returning the empty dictionary. -/
theorem c2_counterexample :
    Queries.query (0 : Nat) QueryOutcome.raised QueryOutcome.raised = Except.error () ∧
    Queries.query (0 : Nat) QueryOutcome.raised QueryOutcome.raised ≠ Except.ok 0 := by
  decide

/-- C2 (amended): a successfully parsed non-null body is returned directly;
    when the primary asynchronous transport raises, the call falls back once
    to the synchronous transport; a transport that succeeds with a null body
    yields the empty dictionary; but when the synchronous fallback also
    raises, the exception propagates to the caller. -/
theorem c2_transport_fallback :
    (∀ (α : Type) (e r : α) (fb : QueryOutcome α),
       Queries.query e (QueryOutcome.parsed (some r)) fb = Except.ok r) ∧
    (∀ (α : Type) (e r : α),
       Queries.query e QueryOutcome.raised (QueryOutcome.parsed (some r)) = Except.ok r) ∧
    (∀ (α : Type) (e : α),
       Queries.query e QueryOutcome.raised (QueryOutcome.parsed none) = Except.ok e) ∧
    (∀ (α : Type) (e : α),
       Queries.query e (QueryOutcome.parsed none) QueryOutcome.raised = Except.ok e) ∧
    (∀ (α : Type) (e : α),
       Queries.query e QueryOutcome.raised QueryOutcome.raised = Except.error ()) :=
  ⟨fun _ _ _ _ => rfl, fun _ _ _ => rfl, fun _ _ => rfl, fun _ _ => rfl, fun _ _ => rfl⟩

theorem query_rest_go_all202 {α : Type} (e : α) :
    ∀ (k i : Nat),
      query_rest_go e (fun _ => RestAttempt.status202) k i = ⟨Except.ok e, k, k⟩ := by
  intro k
  induction k with
  | zero => intro i; rfl
  | succ n ih => intro i; simp [query_rest_go, ih]

/-- C3 (counterexample): on a stream answering 202 exactly three times and
    then 200 with payload 7, `query_rest` does return the 200 payload but
    sleeps three times (once per 202 response), not twice. -/
theorem c3_counterexample :
    (query_rest 0 att3).result = Except.ok 7 ∧ (query_rest 0 att3).sleeps ≠ 2 := by
  decide

/-- C3 (amended): `query_rest` retries on HTTP 202 after a fixed
    `sleep(2)`, for at most 60 attempts; on 202 exactly three times then 200
    it returns the 200 payload after three sleeps (one per 202); on 202 for
    all 60 attempts it returns the empty result after exactly 60 requests
    (never a 61st); any first-attempt non-202 payload returns immediately
    with one request and no sleep. -/
theorem c3_rest_retry :
    (query_rest 0 att3 = ⟨Except.ok 7, 4, 3⟩) ∧
    (∀ (α : Type) (e : α),
       query_rest e (fun _ => RestAttempt.status202) = ⟨Except.ok e, 60, 60⟩) ∧
    (∀ (α : Type) (e r : α) (att : Nat → RestAttempt α),
       att 0 = RestAttempt.ok (some r) → query_rest e att = ⟨Except.ok r, 1, 0⟩) := by
  refine ⟨by decide, fun α e => query_rest_go_all202 e 60 0, fun α e r att h => ?_⟩
  show query_rest_go e att 60 0 = _
  simp [query_rest_go, h]

/-- C3 witness: on a stream whose first response is 200 with payload 9,
    `query_rest` returns it immediately with one request and no sleep. -/
theorem c3_rest_retry_witness :
    query_rest (0 : Nat) (fun _ => RestAttempt.ok (some 9)) = ⟨Except.ok 9, 1, 0⟩ :=
  c3_rest_retry.2.2 Nat 0 9 (fun _ => RestAttempt.ok (some 9)) rfl

/-- C4 (code bug): on a fresh `Stats` object whose single overview page
    reports 5 open issues, reading the `issues` property returns the
    initialised default 0 and runs `get_stats` zero times, even though a
    `get_stats` run would populate `_issues = 5`: the `if self._issues is
    None` guard can never fire because `_issues` is initialised to `0`. -/
theorem c4_issues_read_failing_input :
    issues_read init_obj = (0, init_obj, 0) ∧
    prs_read init_obj = (0, init_obj, 0) ∧
    (get_stats cfg0 ⟨page5, []⟩ init_obj).map StatsObj._issues = some 5 := by
  decide

/-- C7: the overview loop terminates exactly when neither collection reports
    `hasNextPage` — a terminal page always counts as the only remaining
    consumed page regardless of what follows it, and a run of `n` continuing
    pages before the terminal one consumes exactly `n + 1` pages; a run given
    a single terminal page still aggregates that page before stopping; and a
    cursor whose page supplies no `endCursor` key retains its previous
    value. -/
theorem c7_pagination :
    (∀ (b : Viewer) (rest : List Viewer),
       viewer_has_next b = false → pages_consumed b rest = 1) ∧
    (∀ (a : Viewer) (mid : List Viewer) (b : Viewer) (rest : List Viewer),
       viewer_has_next a = true → (∀ x ∈ mid, viewer_has_next x = true) →
       viewer_has_next b = false →
       pages_consumed a (mid ++ b :: rest) = mid.length + 2) ∧
    (∀ (cfg : Config) (s : LoopState) (b : Viewer) (rest : List Viewer),
       viewer_has_next b = false → run_pages cfg s b rest = process_page cfg s b) ∧
    (∀ (prev : Option String) (p : Option RepoPage),
       (page_info_of p).bind PageInfo.endCursor = none → advance_cursor prev p = prev) := by
  refine ⟨?_, ?_, ?_, ?_⟩
  · intro b rest h
    cases rest with
    | nil => rfl
    | cons w ws => simp [pages_consumed, h]
  · intro a mid
    induction mid generalizing a with
    | nil =>
      intro b rest ha hmid hb
      cases rest with
      | nil => simp [pages_consumed, ha, hb]
      | cons w ws => simp [pages_consumed, ha, hb]
    | cons x xs ih =>
      intro b rest ha hmid hb
      have hx : viewer_has_next x = true := hmid x (List.mem_cons_self x xs)
      have hxs : ∀ y ∈ xs, viewer_has_next y = true := fun y hy => hmid y (List.mem_cons_of_mem x hy)
      have hstep : pages_consumed a ((x :: xs) ++ b :: rest) =
          pages_consumed x (xs ++ b :: rest) + 1 := by
        simp [pages_consumed, ha]
      rw [hstep, ih x b rest hx hxs hb]
      simp only [List.length_cons]
  · intro cfg s b rest h
    cases rest with
    | nil => rfl
    | cons w ws => simp [run_pages, h]
  · intro prev p h
    unfold advance_cursor
    match hpi : page_info_of p with
    | none => rfl
    | some pi =>
      rw [hpi] at h
      have h2 : pi.endCursor = none := h
      show (match pi.endCursor with | none => prev | some c => c) = prev
      rw [h2]

/-- C7 witness: a continuing page followed by a terminal page consumes
    exactly two pages; a lone terminal page consumes one and is still
    aggregated; an absent continuation token leaves the cursor unchanged. -/
theorem c7_witness :
    pages_consumed pageB [] = 1 ∧
    pages_consumed pageA [pageB] = 2 ∧
    run_pages cfg0 (loop_state_of init_obj) pageB [] =
      process_page cfg0 (loop_state_of init_obj) pageB ∧
    advance_cursor (some "cur1") none = some "cur1" :=
  ⟨c7_pagination.1 pageB [] (by decide),
   c7_pagination.2.1 pageA [] pageB [] (by decide) (by simp) (by decide),
   c7_pagination.2.2.1 cfg0 (loop_state_of init_obj) pageB [] (by decide),
   c7_pagination.2.2.2 (some "cur1") none (by decide)⟩

theorem process_repo_nodup (cfg : Config) (s : LoopState) (r : Option Repo)
    (h : s._repos.Nodup) : (process_repo cfg s r)._repos.Nodup := by
  cases r with
  | none => exact h
  | some repo =>
    simp only [process_repo]
    split
    · exact h
    · rename_i hc
      have hmem : repo.nameWithOwner ∉ s._repos := fun hm => hc (Or.inl hm)
      show (s._repos ++ [repo.nameWithOwner]).Nodup
      simp [List.nodup_append, h, hmem]

theorem process_repo_mem (cfg : Config) (s : LoopState) (r : Option Repo)
    (x : Option String) (h : x ∈ s._repos) : x ∈ (process_repo cfg s r)._repos := by
  cases r with
  | none => exact h
  | some repo =>
    simp only [process_repo]
    split
    · exact h
    · show x ∈ s._repos ++ [repo.nameWithOwner]
      exact List.mem_append_left _ h

theorem process_repo_excl (cfg : Config) (s : LoopState) (r : Option Repo)
    (h : ∀ x ∈ cfg.exclude_repos, some x ∉ s._repos) :
    ∀ x ∈ cfg.exclude_repos, some x ∉ (process_repo cfg s r)._repos := by
  cases r with
  | none => exact h
  | some repo =>
    simp only [process_repo]
    split
    · exact h
    · rename_i hc
      intro x hx hmem
      have hmem2 : some x ∈ s._repos ++ [repo.nameWithOwner] := hmem
      rcases List.mem_append.mp hmem2 with hm | hm
      · exact h x hx hm
      · have hn : repo.nameWithOwner = some x := (List.mem_singleton.mp hm).symm
        apply hc
        right
        rw [hn]
        simp [optMemRepos, hx]

theorem process_repo_skip_excluded (cfg : Config) (s : LoopState) (repo : Repo)
    (h : optMemRepos repo.nameWithOwner cfg.exclude_repos = true) :
    process_repo cfg s (some repo) = s := by
  simp only [process_repo]
  rw [if_pos (Or.inr h)]

theorem process_repo_adds (cfg : Config) (s : LoopState) (repo : Repo)
    (h1 : repo.nameWithOwner ∉ s._repos)
    (h2 : optMemRepos repo.nameWithOwner cfg.exclude_repos = false) :
    (process_repo cfg s (some repo))._repos = s._repos ++ [repo.nameWithOwner] := by
  simp only [process_repo]
  rw [if_neg]
  intro hc
  rcases hc with hm | hm
  · exact h1 hm
  · rw [h2] at hm
    cases hm

theorem foldl_repo_mem (cfg : Config) (x : Option String) :
    ∀ (l : List (Option Repo)) (s : LoopState),
      x ∈ s._repos → x ∈ (l.foldl (process_repo cfg) s)._repos :=
  fun l s h => foldl_inv (process_repo cfg) (fun t => x ∈ t._repos)
    (fun t r ht => process_repo_mem cfg t r x ht) l s h

theorem run_pages_repos_mono (cfg : Config) (x : Option String) :
    ∀ (rest : List Viewer) (s : LoopState) (v : Viewer),
      x ∈ s._repos → x ∈ (run_pages cfg s v rest)._repos :=
  run_pages_inv_rl cfg (fun t => x ∈ t._repos)
    (fun s nm iss prs h => h) (fun s a b h => h)
    (fun s r h => process_repo_mem cfg s r x h)

theorem foldl_repo_complete (cfg : Config) (repo : Repo) (n : Option String)
    (hn : repo.nameWithOwner = n)
    (hex : optMemRepos n cfg.exclude_repos = false) :
    ∀ (l : List (Option Repo)) (s : LoopState),
      some repo ∈ l → n ∈ (l.foldl (process_repo cfg) s)._repos := by
  intro l
  induction l with
  | nil => intro s h; cases h
  | cons x xs ih =>
    intro s h
    rcases List.mem_cons.mp h with hx | hx
    · subst hx
      rw [List.foldl_cons]
      apply foldl_repo_mem
      by_cases hm : n ∈ s._repos
      · exact process_repo_mem cfg s (some repo) n hm
      · rw [← hn] at hm hex ⊢
        rw [process_repo_adds cfg s repo hm hex]
        exact List.mem_append_right _ (List.mem_singleton.mpr rfl)
    · exact ih (process_repo cfg s x) hx

theorem process_page_complete (cfg : Config) (s : LoopState) (v : Viewer)
    (repo : Repo) (n : Option String)
    (hmem : some repo ∈ page_repo_nodes cfg v) (hn : repo.nameWithOwner = n)
    (hex : optMemRepos n cfg.exclude_repos = false) :
    n ∈ (process_page cfg s v)._repos := by
  unfold process_page
  exact foldl_repo_complete cfg repo n hn hex _ _ hmem

theorem run_pages_complete (cfg : Config) :
    ∀ (rest : List Viewer) (s : LoopState) (v : Viewer),
      ∀ w ∈ consumed_pages v rest, ∀ (repo : Repo) (n : Option String),
        some repo ∈ page_repo_nodes cfg w → repo.nameWithOwner = n →
        optMemRepos n cfg.exclude_repos = false →
        n ∈ (run_pages cfg s v rest)._repos := by
  intro rest
  induction rest with
  | nil =>
    intro s v w hw repo n hmem hn hex
    have hv : w = v := by simpa [consumed_pages] using hw
    subst hv
    simpa [run_pages] using process_page_complete cfg s w repo n hmem hn hex
  | cons w1 ws ih =>
    intro s v w hw repo n hmem hn hex
    simp only [run_pages]
    simp only [consumed_pages] at hw
    split
    · rename_i hnext
      rw [if_pos hnext] at hw
      rcases List.mem_cons.mp hw with hv | hv
      · subst hv
        apply run_pages_repos_mono
        exact process_page_complete cfg s w repo n hmem hn hex
      · exact ih _ w1 w hv repo n hmem hn hex
    · rename_i hnext
      rw [if_neg hnext] at hw
      have hv : w = v := by simpa using hw
      subst hv
      exact process_page_complete cfg s w repo n hmem hn hex

theorem run_pages_nodup (cfg : Config) :
    ∀ (rest : List Viewer) (s : LoopState) (v : Viewer),
      s._repos.Nodup → (run_pages cfg s v rest)._repos.Nodup :=
  run_pages_inv_rl cfg (fun t => t._repos.Nodup)
    (fun s nm iss prs h => h) (fun s a b h => h)
    (fun s r h => process_repo_nodup cfg s r h)

theorem run_pages_excl (cfg : Config) :
    ∀ (rest : List Viewer) (s : LoopState) (v : Viewer),
      (∀ x ∈ cfg.exclude_repos, some x ∉ s._repos) →
      ∀ x ∈ cfg.exclude_repos, some x ∉ (run_pages cfg s v rest)._repos :=
  run_pages_inv_rl cfg (fun t => ∀ x ∈ cfg.exclude_repos, some x ∉ t._repos)
    (fun s nm iss prs h => h) (fun s a b h => h)
    (fun s r h => process_repo_excl cfg s r h)

/-- C5: across any sequence of overview pages, including overlapping or
    repeated identifiers between the owned and contributed collections, the
    resulting repo set is duplicate-free; an identifier of the caller's
    exclusion set is never a member; every non-excluded identifier appearing
    on a consumed page ends up in the set; and processing a repo whose
    identifier is excluded leaves the whole loop state — repo set and
    language table alike — unchanged. -/
theorem c5_repo_set :
    ∀ (cfg : Config) (obj : StatsObj) (v : Viewer) (rest : List Viewer),
      ((run_pages cfg (loop_state_of obj) v rest)._repos).Nodup ∧
      (∀ x ∈ cfg.exclude_repos, some x ∉ (run_pages cfg (loop_state_of obj) v rest)._repos) ∧
      (∀ w ∈ consumed_pages v rest, ∀ (repo : Repo) (n : Option String),
        some repo ∈ page_repo_nodes cfg w → repo.nameWithOwner = n →
        optMemRepos n cfg.exclude_repos = false →
        n ∈ (run_pages cfg (loop_state_of obj) v rest)._repos) ∧
      (∀ (s : LoopState) (repo : Repo),
        optMemRepos repo.nameWithOwner cfg.exclude_repos = true →
        process_repo cfg s (some repo) = s) := by
  intro cfg obj v rest
  refine ⟨?_, ?_, ?_, ?_⟩
  · exact run_pages_nodup cfg rest _ v (by simp [loop_state_of])
  · exact run_pages_excl cfg rest _ v (by simp [loop_state_of])
  · intro w hw repo n hmem hn hex
    exact run_pages_complete cfg rest _ v w hw repo n hmem hn hex
  · intro s repo h
    exact process_repo_skip_excluded cfg s repo h

/-- C5 witness: on a concrete run whose exclusion set contains "e/x", the
    repo set is duplicate-free, never contains the excluded identifier,
    contains the aggregated page's non-excluded identifier, and processing an
    excluded repo leaves the state unchanged. -/
theorem c5_witness :
    ((run_pages cfgX (loop_state_of init_obj) pageW [])._repos).Nodup ∧
    some "e/x" ∉ (run_pages cfgX (loop_state_of init_obj) pageW [])._repos ∧
    some "a/b" ∈ (run_pages cfgX (loop_state_of init_obj) pageW [])._repos ∧
    process_repo cfgX (loop_state_of init_obj) (some repoEx) = loop_state_of init_obj :=
  ⟨(c5_repo_set cfgX init_obj pageW []).1,
   (c5_repo_set cfgX init_obj pageW []).2.1 "e/x" (by decide),
   (c5_repo_set cfgX init_obj pageW []).2.2.1 pageW (by decide) repoW (some "a/b")
     (by decide) rfl (by decide),
   (c5_repo_set cfgX init_obj pageW []).2.2.2 (loop_state_of init_obj) repoEx (by decide)⟩

theorem mem_keys_update (m : String) (sz : Nat) (c : Option String) :
    ∀ (tbl : List (String × LangStat)) (x : String),
      x ∈ lang_keys (update_lang tbl m sz c) ↔ x ∈ lang_keys tbl ∨ x = m := by
  intro tbl
  induction tbl with
  | nil =>
    intro x
    simp [update_lang, lang_keys]
  | cons p rest ih =>
    intro x
    by_cases h : p.1 = m
    · subst h
      have hu : update_lang (p :: rest) p.1 sz c =
          (p.1, ⟨p.2.size + sz, p.2.occurrences + 1, p.2.color⟩) :: rest := by
        simp [update_lang]
      rw [hu]
      simp only [lang_keys, List.map_cons, List.mem_cons]
      tauto
    · simp only [update_lang, if_neg h]
      simp only [lang_keys, List.map_cons, List.mem_cons] at ih ⊢
      rw [ih x]
      tauto

theorem langs_total_update (m : String) (sz : Nat) (c : Option String) :
    ∀ (tbl : List (String × LangStat)),
      langs_total (update_lang tbl m sz c) = langs_total tbl + sz := by
  intro tbl
  induction tbl with
  | nil => simp [update_lang, langs_total]
  | cons p rest ih =>
    by_cases h : p.1 = m
    · simp [update_lang, h, langs_total]
      omega
    · simp only [update_lang, if_neg h]
      simp only [langs_total, List.map_cons, List.sum_cons] at ih ⊢
      omega

theorem process_lang_excl (exLower : List String) (n : String)
    (hn : str_lower n ∈ exLower) :
    ∀ (tbl : List (String × LangStat)) (e : LangEdge),
      n ∉ lang_keys tbl → n ∉ lang_keys (process_lang exLower tbl e) := by
  intro tbl e h
  simp only [process_lang]
  split
  · exact h
  · rename_i hne
    intro hc
    rcases (mem_keys_update (edge_name e) (edge_size e) (edge_color e) tbl n).mp hc with hm | hm
    · exact h hm
    · subst hm
      exact hne hn

theorem process_repo_lang_excl (cfg : Config) (n : String)
    (hn : str_lower n ∈ cfg.exclude_langs.map str_lower) :
    ∀ (s : LoopState) (r : Option Repo),
      n ∉ lang_keys s._languages → n ∉ lang_keys (process_repo cfg s r)._languages := by
  intro s r h
  cases r with
  | none => exact h
  | some repo =>
    simp only [process_repo]
    split
    · exact h
    · show n ∉ lang_keys (repo.languages.foldl
        (process_lang (cfg.exclude_langs.map str_lower)) s._languages)
      exact foldl_inv _ (fun tbl => n ∉ lang_keys tbl)
        (fun tbl e ht => process_lang_excl _ n hn tbl e ht) _ _ h

theorem run_pages_lang_excl (cfg : Config) (n : String)
    (hn : str_lower n ∈ cfg.exclude_langs.map str_lower) :
    ∀ (rest : List Viewer) (s : LoopState) (v : Viewer),
      n ∉ lang_keys s._languages → n ∉ lang_keys (run_pages cfg s v rest)._languages :=
  run_pages_inv_rl cfg (fun t => n ∉ lang_keys t._languages)
    (fun s nm iss prs h => h) (fun s a b h => h)
    (fun s r h => process_repo_lang_excl cfg n hn s r h)

/-- C8: language-exclusion matching is case-insensitive while repo-identifier
    exclusion is exact: on every aggregation run whose language exclusion set
    is exactly the singleton "python", the reported language "Python" never
    appears as a key of the language table; a repo is skipped with the whole
    state unchanged precisely when its identifier exactly equals an excluded
    identifier, and a fresh, non-excluded identifier is always appended. -/
theorem c8_exclusion_matching :
    (∀ (exR : List String) (ign : Bool) (obj : StatsObj) (v : Viewer) (rest : List Viewer),
       "Python" ∉ lang_keys ((run_pages ⟨exR, ["python"], ign⟩ (loop_state_of obj) v rest)._languages)) ∧
    (∀ (cfg : Config) (s : LoopState) (repo : Repo),
       optMemRepos repo.nameWithOwner cfg.exclude_repos = true →
       process_repo cfg s (some repo) = s) ∧
    (∀ (cfg : Config) (s : LoopState) (repo : Repo),
       repo.nameWithOwner ∉ s._repos →
       optMemRepos repo.nameWithOwner cfg.exclude_repos = false →
       (process_repo cfg s (some repo))._repos = s._repos ++ [repo.nameWithOwner]) := by
  refine ⟨?_, ?_, ?_⟩
  · intro exR ign obj v rest
    have hn : str_lower "Python" ∈ (["python"].map str_lower) := by decide
    exact run_pages_lang_excl ⟨exR, ["python"], ign⟩ "Python" hn rest
      (loop_state_of obj) v (by simp [loop_state_of, lang_keys])
  · exact fun cfg s repo h => process_repo_skip_excluded cfg s repo h
  · exact fun cfg s repo h1 h2 => process_repo_adds cfg s repo h1 h2

/-- C8 witness: a concrete run with language exclusion "python" never tables
    the key "Python"; an exactly-matching excluded repo identifier is
    skipped; a non-excluded identifier is appended. -/
theorem c8_witness :
    "Python" ∉ lang_keys ((run_pages ⟨[], ["python"], false⟩ (loop_state_of init_obj) pageW [])._languages) ∧
    process_repo cfgX (loop_state_of init_obj) (some repoEx) = loop_state_of init_obj ∧
    (process_repo cfg0 (loop_state_of init_obj) (some repoW))._repos =
      (loop_state_of init_obj)._repos ++ [repoW.nameWithOwner] :=
  ⟨c8_exclusion_matching.1 [] false init_obj pageW [],
   c8_exclusion_matching.2.1 cfgX (loop_state_of init_obj) repoEx (by decide),
   c8_exclusion_matching.2.2 cfg0 (loop_state_of init_obj) repoW (by decide) (by decide)⟩

/-- C10: a language edge whose node object is missing aggregates under the
    literal key "Other"; an edge whose size is missing contributes 0 bytes;
    and every edge whose (defaulted) name is not excluded is merged into the
    table — its key is present afterwards and the table's total size grows by
    exactly the edge's (defaulted) size. -/
theorem c10_incomplete_edges :
    ∀ (exLower : List String) (tbl : List (String × LangStat)) (e : LangEdge),
      (e.node = none → edge_name e = "Other") ∧
      (e.size = none → edge_size e = 0) ∧
      (str_lower (edge_name e) ∉ exLower →
        edge_name e ∈ lang_keys (process_lang exLower tbl e) ∧
        langs_total (process_lang exLower tbl e) = langs_total tbl + edge_size e) := by
  intro exLower tbl e
  refine ⟨?_, ?_, ?_⟩
  · intro h
    simp [edge_name, h]
  · intro h
    simp [edge_size, h]
  · intro h
    simp only [process_lang, if_neg h]
    exact ⟨(mem_keys_update (edge_name e) (edge_size e) (edge_color e) tbl (edge_name e)).mpr
        (Or.inr rfl),
      langs_total_update (edge_name e) (edge_size e) (edge_color e) tbl⟩

/-- C10 witness: the edge with both fields missing is filed under "Other"
    with size 0 and still merged into the (empty) table. -/
theorem c10_witness :
    edge_name ⟨none, none⟩ = "Other" ∧
    edge_size ⟨none, none⟩ = 0 ∧
    (edge_name ⟨none, none⟩ ∈ lang_keys (process_lang [] [] ⟨none, none⟩) ∧
     langs_total (process_lang [] [] ⟨none, none⟩) =
       langs_total ([] : List (String × LangStat)) + edge_size ⟨none, none⟩) :=
  ⟨(c10_incomplete_edges [] [] ⟨none, none⟩).1 rfl,
   (c10_incomplete_edges [] [] ⟨none, none⟩).2.1 rfl,
   (c10_incomplete_edges [] [] ⟨none, none⟩).2.2 (by decide)⟩

theorem props_sum (tbl : List (String × LangStat)) (h : langs_total tbl ≠ 0) :
    (tbl.map fun p => 100 * ((p.2.size : Rat) / (langs_total tbl : Rat))).sum = 100 := by
  have hT : ((langs_total tbl : Nat) : Rat) ≠ 0 := by
    exact_mod_cast h
  have hrw : (tbl.map fun p => 100 * ((p.2.size : Rat) / (langs_total tbl : Rat))) =
      tbl.map fun p => (100 / (langs_total tbl : Rat)) * (p.2.size : Rat) := by
    apply List.map_congr_left
    intro p hp
    field_simp
  rw [hrw, List.sum_map_mul_left]
  have hsum : (tbl.map fun p => ((p.2.size : Nat) : Rat)).sum = ((langs_total tbl : Nat) : Rat) := by
    rw [langs_total, Nat.cast_list_sum, List.map_map]
    rfl
  rw [hsum]
  field_simp

/-- C6 (counterexample): a run whose single page carries one repository with
    one language edge of size 0 leaves a non-empty included-language table
    with total size 0, and `get_stats` then aborts with a division error
    instead of completing with proportions that sum to 100. -/
theorem c6_counterexample :
    get_stats cfg0 ⟨pageZ, []⟩ init_obj = none ∧
    (run_pages cfg0 (loop_state_of init_obj) pageZ [])._languages ≠ [] := by
  decide

theorem compute_props_eq (tbl : List (String × LangStat)) (pr : List (String × Rat))
    (h : compute_props tbl = some pr) :
    pr = tbl.map fun p => (p.1, 100 * ((p.2.size : Rat) / (langs_total tbl : Rat))) := by
  unfold compute_props at h
  split at h
  · rename_i hemp
    rw [List.isEmpty_iff] at hemp
    subst hemp
    simpa using (Option.some_inj.mp h).symm
  · split at h
    · cases h
    · exact (Option.some_inj.mp h).symm

theorem compute_props_total_ne (tbl : List (String × LangStat)) (pr : List (String × Rat))
    (h : compute_props tbl = some pr) (hne : tbl ≠ []) : langs_total tbl ≠ 0 := by
  unfold compute_props at h
  split at h
  · rename_i hemp
    rw [List.isEmpty_iff] at hemp
    exact absurd hemp hne
  · split at h
    · cases h
    · rename_i hT
      exact hT

theorem compute_props_sum_100 (tbl : List (String × LangStat)) (pr : List (String × Rat))
    (h : compute_props tbl = some pr) (hne : tbl ≠ []) :
    (pr.map Prod.snd).sum = 100 := by
  rw [compute_props_eq tbl pr h, List.map_map]
  exact props_sum tbl (compute_props_total_ne tbl pr h hne)

theorem compute_props_nil (tbl : List (String × LangStat)) (pr : List (String × Rat))
    (h : compute_props tbl = some pr) (he : tbl = []) : pr = [] := by
  subst he
  exact (Option.some_inj.mp h).symm

/-- C6 (amended): whenever `get_stats` completes (it aborts with a division
    error exactly when the included-language table is non-empty with total
    size 0), each language's proportion equals `100 * size / total` over the
    included languages, the proportions sum to exactly 100 when the table is
    non-empty, and an empty table completes gracefully with no proportions. -/
theorem c6_proportions (cfg : Config) (env : Env) (obj obj1 : StatsObj)
    (h : get_stats cfg env obj = some obj1) :
    ∃ tbl pr, obj1._languages = some tbl ∧ obj1._props = some pr ∧
      pr = tbl.map (fun p => (p.1, 100 * ((p.2.size : Rat) / (langs_total tbl : Rat)))) ∧
      (tbl ≠ [] → (pr.map Prod.snd).sum = 100) ∧
      (tbl = [] → pr = []) := by
  simp only [get_stats] at h
  set s := run_pages cfg (loop_state_of obj) env.first_page env.more_pages with hs
  match hcp : compute_props s._languages with
  | none =>
    rw [hcp] at h
    cases h
  | some pr0 =>
    rw [hcp] at h
    simp only [Option.map_some'] at h
    have h2 := Option.some_inj.mp h
    subst h2
    exact ⟨s._languages, pr0, rfl, rfl, compute_props_eq _ _ hcp,
      fun hne => compute_props_sum_100 _ _ hcp hne,
      fun he => compute_props_nil _ _ hcp he⟩

/-- C6 witness: a concrete successful run whose single language has size 10
    satisfies the proportion properties. -/
theorem c6_witness :
    ∃ tbl pr, objW._languages = some tbl ∧ objW._props = some pr ∧
      pr = tbl.map (fun p => (p.1, 100 * ((p.2.size : Rat) / (langs_total tbl : Rat)))) ∧
      (tbl ≠ [] → (pr.map Prod.snd).sum = 100) ∧
      (tbl = [] → pr = []) :=
  c6_proportions cfg0 ⟨pageW, []⟩ init_obj objW rfl
